import Mathlib

/-!
Shallow embedding of the spatial-planning core
(`src/spatial_planning/models.py`, `constraints.py`, `optimizer.py`).

Python `float` values are modelled by exact rationals `ℚ`: every quantity the
algorithm manipulates on the claims' inputs (grid positions, which are
multiples of the step `0.5`, and sums/products of user-supplied dimensions)
is a dyadic rational on which Python float arithmetic is exact, so the two
agree.  Violation messages, which the Python code builds as formatted
strings, are modelled by an inductive type that records which check fired and
the room names involved; the claims only depend on which messages occur, how
many, and in which order.
-/

set_option maxRecDepth 100000

namespace SpatialPlanning

/-- `models.Dimensions`: width/height pair (pydantic validates both `> 0`;
the positivity invariant is carried as a hypothesis where a claim needs it). -/
structure Dimensions where
  width : ℚ
  height : ℚ
deriving DecidableEq

/-- `Dimensions.area` property. -/
def Dimensions.area (d : Dimensions) : ℚ := d.width * d.height

/-- `models.Position`: top-left corner coordinates (pydantic validates `>= 0`). -/
structure Position where
  x : ℚ
  y : ℚ
deriving DecidableEq

/-- `models.Room`.  `position = none` is an unplaced room.  Field order follows
the Python class. -/
structure Room where
  id : String
  name : String
  dimensions : Dimensions
  room_type : String
  position : Option Position
  priority : Int
deriving DecidableEq

/-- `Room.area` property. -/
def Room.area (r : Room) : ℚ := r.dimensions.area

/-- The `params` dict of `models.Constraint`, restricted to the keys the
validator reads (`room1`, `room2`, `distance`, `max_distance`); a `none`
field models an absent key (`dict.get` returning `None`). -/
structure ConstraintParams where
  room1 : Option String
  room2 : Option String
  distance : Option ℚ
  max_distance : Option ℚ
deriving DecidableEq

/-- `models.Constraint`. -/
structure Constraint where
  type : String
  params : ConstraintParams
  description : Option String
deriving DecidableEq

/-- `models.Space`. -/
structure Space where
  dimensions : Dimensions
  rooms : List Room
  constraints : List Constraint
deriving DecidableEq

/-- `Space.area` property. -/
def Space.area (s : Space) : ℚ := s.dimensions.area

/-- One violation message from `constraints.ConstraintValidator`.  Each
constructor corresponds to one `violations.append(...)` site and records the
room names interpolated into the f-string there. -/
inductive Violation where
  | boundsWidth (name : String)
  | boundsHeight (name : String)
  | overlap (name1 name2 : String)
  | minDistance (name1 name2 : String)
  | adjacency (name1 name2 : String)
deriving DecidableEq

/-- The `metadata` dict built by `LayoutOptimizer.generate_layout`. -/
structure Metadata where
  total_rooms : Nat
  placed_rooms : Nat
  placement_rate : ℚ
  algorithm : String
deriving DecidableEq

/-- `models.Layout`. -/
structure Layout where
  space : Space
  placed_rooms : List Room
  score : ℚ
  violations : List Violation
  metadata : Metadata
deriving DecidableEq

/-- `Layout.is_valid` property: `len(self.violations) == 0`. -/
def Layout.is_valid (l : Layout) : Bool := l.violations.length == 0

/-! ### `constraints.ConstraintValidator` -/

/-- `ConstraintValidator._rooms_overlap`: half-open rectangle overlap test;
returns `False` when either room is unplaced. -/
def roomsOverlap (room1 room2 : Room) : Bool :=
  match room1.position, room2.position with
  | some p1, some p2 =>
    let r1_x2 := p1.x + room1.dimensions.width
    let r1_y2 := p1.y + room1.dimensions.height
    let r2_x2 := p2.x + room2.dimensions.width
    let r2_y2 := p2.y + room2.dimensions.height
    ! (decide (r1_x2 ≤ p2.x) || decide (r2_x2 ≤ p1.x) ||
       decide (r1_y2 ≤ p2.y) || decide (r2_y2 ≤ p1.y))
  | _, _ => false

/-- Per-room body of `ConstraintValidator._check_bounds`: unplaced rooms are
skipped; each axis is tested independently with strict `>` and appends one
message. -/
def boundsViolations (space : Space) (room : Room) : List Violation :=
  match room.position with
  | none => []
  | some p =>
    let max_x := p.x + room.dimensions.width
    let max_y := p.y + room.dimensions.height
    (if space.dimensions.width < max_x then [Violation.boundsWidth room.name] else []) ++
      (if space.dimensions.height < max_y then [Violation.boundsHeight room.name] else [])

/-- `ConstraintValidator._check_bounds`: the loop appends each room's
violations in room order. -/
def checkBounds (space : Space) (rooms : List Room) : List Violation :=
  rooms.flatMap (boundsViolations space)

/-- `ConstraintValidator._check_overlaps`: for `i < j`, one message per
overlapping pair `(rooms[i], rooms[j])`; unplaced rooms contribute nothing
(`_rooms_overlap` is `False` on them, matching the `continue` guards). -/
def checkOverlaps : List Room → List Violation
  | [] => []
  | room1 :: rest =>
    (rest.filterMap fun room2 =>
      if roomsOverlap room1 room2 then some (Violation.overlap room1.name room2.name) else none)
      ++ checkOverlaps rest

/-- `next((r for r in rooms if r.id == room_id), None)` where `room_id` is
`params.get(...)`; an absent key (`none`) matches no room, as `r.id == None`
is false for every string id. -/
def findRoomById (rooms : List Room) (roomId : Option String) : Option Room :=
  match roomId with
  | none => none
  | some i => rooms.find? (fun r => r.id == i)

/-- The radicand of `ConstraintValidator._calculate_distance`: the squared
Euclidean distance between rectangle centers, `some` exactly when both rooms
are positioned (the Python function returns `inf` otherwise, a value its
callers never reach because they guard on both positions first).
`_calculate_distance` itself returns the square root of this; threshold
comparisons against it are made through `sqrtLtB` / `sqrtGtB` below, which are
proven equivalent to comparing the real square root. -/
def calculateDistanceSq (room1 room2 : Room) : Option ℚ :=
  match room1.position, room2.position with
  | some p1, some p2 =>
    let r1_cx := p1.x + room1.dimensions.width / 2
    let r1_cy := p1.y + room1.dimensions.height / 2
    let r2_cx := p2.x + room2.dimensions.width / 2
    let r2_cy := p2.y + room2.dimensions.height / 2
    some ((r1_cx - r2_cx) ^ 2 + (r1_cy - r2_cy) ^ 2)
  | _, _ => none

/-- Decides `Real.sqrt sq < d` for `0 ≤ sq` (see `sqrtLtB_correct`). -/
def sqrtLtB (sq d : ℚ) : Bool := decide (0 < d) && decide (sq < d ^ 2)

/-- Decides `d < Real.sqrt sq` for `0 ≤ sq` (see `sqrtGtB_correct`). -/
def sqrtGtB (sq d : ℚ) : Bool := decide (d < 0) || decide (d ^ 2 < sq)

/-- `ConstraintValidator._check_min_distance`: silently yields `[]` unless both
referenced rooms are found and positioned; violation iff center distance is
strictly below `params.distance` (default `0`). -/
def checkMinDistance (rooms : List Room) (c : Constraint) : List Violation :=
  let room1 := findRoomById rooms c.params.room1
  let room2 := findRoomById rooms c.params.room2
  let min_dist := c.params.distance.getD 0
  match room1, room2 with
  | some r1, some r2 =>
    match calculateDistanceSq r1 r2 with
    | some sq =>
      if sqrtLtB sq min_dist then [Violation.minDistance r1.name r2.name] else []
    | none => []
  | _, _ => []

/-- `ConstraintValidator._check_adjacency`: same lookup policy; violation iff
center distance strictly exceeds `params.max_distance` (default `1.0`). -/
def checkAdjacency (rooms : List Room) (c : Constraint) : List Violation :=
  let room1 := findRoomById rooms c.params.room1
  let room2 := findRoomById rooms c.params.room2
  let max_dist := c.params.max_distance.getD 1
  match room1, room2 with
  | some r1, some r2 =>
    match calculateDistanceSq r1 r2 with
    | some sq =>
      if sqrtGtB sq max_dist then [Violation.adjacency r1.name r2.name] else []
    | none => []
  | _, _ => []

/-- `ConstraintValidator._check_custom_constraints`: dispatch on `type`;
unrecognized types are silently ignored. -/
def checkCustomConstraints (space : Space) (rooms : List Room) : List Violation :=
  space.constraints.flatMap fun c =>
    if c.type == "min_distance" then checkMinDistance rooms c
    else if c.type == "adjacency" then checkAdjacency rooms c
    else []

/-- `ConstraintValidator.validate_layout`: bounds, then overlaps, then custom
constraints. -/
def validateLayout (space : Space) (rooms : List Room) : List Violation :=
  checkBounds space rooms ++ checkOverlaps rooms ++ checkCustomConstraints space rooms

/-! ### `optimizer.LayoutOptimizer` -/

/-- `grid_step = 0.5` in `_find_best_position`. -/
def gridStep : ℚ := 1 / 2

/-- Number of iterations of one axis of the grid-search `while` loop: the
count of `i : ℕ` with `i * gridStep + size ≤ limit` (see `lt_gridCount_iff`). -/
def gridCount (limit size : ℚ) : Nat :=
  if size ≤ limit then (⌊(limit - size) / gridStep⌋).toNat + 1 else 0

/-- The candidate positions of `_find_best_position`'s nested `while` loops,
in scan order: row-major, `y` outer / `x` inner, both increasing from `0` in
steps of `gridStep`, subject to `x + room.width ≤ space.width` and
`y + room.height ≤ space.height`. -/
def candidatePositions (space : Space) (room : Room) : List Position :=
  (List.range (gridCount space.dimensions.height room.dimensions.height)).flatMap
    fun (j : ℕ) => (List.range (gridCount space.dimensions.width room.dimensions.width)).map
      fun (i : ℕ) => { x := (i : ℚ) * gridStep, y := (j : ℚ) * gridStep }

/-- The `Room(...)` constructions in `generate_layout` / `_find_best_position`:
a fresh room value copying every template field and carrying the position. -/
def positionedRoom (room : Room) (position : Position) : Room :=
  { id := room.id, name := room.name, dimensions := room.dimensions,
    room_type := room.room_type, position := some position, priority := room.priority }

/-- `LayoutOptimizer._has_overlap`: `False` for an unplaced room; otherwise the
same inline half-open rectangle test as `_rooms_overlap` against each placed
room, skipping unplaced ones. -/
def hasOverlap (room : Room) (placed_rooms : List Room) : Bool :=
  match room.position with
  | none => false
  | some p1 =>
    placed_rooms.any fun placed =>
      match placed.position with
      | none => false
      | some p2 =>
        let r1_x2 := p1.x + room.dimensions.width
        let r1_y2 := p1.y + room.dimensions.height
        let r2_x2 := p2.x + placed.dimensions.width
        let r2_y2 := p2.y + placed.dimensions.height
        ! (decide (r1_x2 ≤ p2.x) || decide (r2_x2 ≤ p1.x) ||
           decide (r1_y2 ≤ p2.y) || decide (r2_y2 ≤ p1.y))

/-- `LayoutOptimizer._score_position`: `-(x + y)`. -/
def scorePosition (position : Position) : ℚ := -(position.x + position.y)

/-- One candidate step of `_find_best_position`'s loop body: the running
`(best_score, best_position)` pair, with `none` standing for the initial
`(-inf, None)` (any real score beats `-inf`); updated only on a strict
improvement `pos_score > best_score`. -/
def bestStep (room : Room) (placed_rooms : List Room) (acc : Option (ℚ × Position))
    (position : Position) : Option (ℚ × Position) :=
  if hasOverlap (positionedRoom room position) placed_rooms then acc
  else
    let pos_score := scorePosition position
    match acc with
    | none => some (pos_score, position)
    | some (best_score, best_position) =>
      if best_score < pos_score then some (pos_score, position)
      else some (best_score, best_position)

/-- `LayoutOptimizer._find_best_position`: fold the loop body over the
candidates in scan order and return the tracked best position (or `none`). -/
def findBestPosition (space : Space) (room : Room) (placed_rooms : List Room) :
    Option Position :=
  ((candidatePositions space room).foldl (bestStep room placed_rooms) none).map Prod.snd

/-- The comparison key of `sorted(rooms, key=lambda r: r.priority,
reverse=True)`: descending priority as a total preorder. -/
def priorityGE (a b : Room) : Prop := b.priority ≤ a.priority

instance : DecidableRel priorityGE :=
  fun a b => inferInstanceAs (Decidable (b.priority ≤ a.priority))

instance : IsTotal Room priorityGE := ⟨fun a b => le_total b.priority a.priority⟩

instance : IsTrans Room priorityGE := ⟨fun _ _ _ h1 h2 => le_trans h2 h1⟩

/-- Python's `sorted(rooms, key=lambda r: r.priority, reverse=True)` is a
stable sort, descending on priority with ties keeping original order; it is
modelled by insertion sort under `priorityGE` (extensionally equal to any
stable descending sort, hence to Python's Timsort with this key). -/
def sortedRooms (space : Space) : List Room :=
  space.rooms.insertionSort priorityGE

/-- One iteration of the placement loop in `generate_layout`: place the room
at the found position (appending the positioned copy), or skip it. -/
def placeStep (space : Space) (placed_rooms : List Room) (room : Room) : List Room :=
  match findBestPosition space room placed_rooms with
  | some position => placed_rooms ++ [positionedRoom room position]
  | none => placed_rooms

/-- The placement loop of `generate_layout`: rooms in priority order, greedy,
no backtracking. -/
def placeRooms (space : Space) : List Room :=
  (sortedRooms space).foldl (placeStep space) []

/-- `LayoutOptimizer._calculate_score`. -/
def calculateScore (space : Space) (placed_rooms : List Room)
    (violations : List Violation) : ℚ :=
  let placement_ratio : ℚ :=
    if space.rooms.isEmpty then 0
    else (placed_rooms.length : ℚ) / (space.rooms.length : ℚ)
  let score₁ : ℚ := placement_ratio * 100 - (violations.length : ℚ) * 10
  let utilization : ℚ :=
    if 0 < space.area then ((placed_rooms.map Room.area).sum) / space.area else 0
  let score₂ : ℚ :=
    if 6 / 10 ≤ utilization ∧ utilization ≤ 8 / 10 then score₁ + 20
    else if 8 / 10 < utilization then score₁ + 10
    else score₁
  if placed_rooms.isEmpty then score₂
  else
    let avg_distance : ℚ :=
      (((placed_rooms.filterMap Room.position).map fun p => p.x + p.y).sum) /
        (placed_rooms.length : ℚ)
    let max_distance := space.dimensions.width + space.dimensions.height
    let compactness := 1 - avg_distance / max_distance
    score₂ + compactness * 10

/-- `LayoutOptimizer.generate_layout`: place, validate, score, assemble. -/
def generateLayout (space : Space) : Layout :=
  let placed_rooms := placeRooms space
  let violations := validateLayout space placed_rooms
  let score := calculateScore space placed_rooms violations
  { space := space
    placed_rooms := placed_rooms
    score := score
    violations := violations
    metadata :=
      { total_rooms := space.rooms.length
        placed_rooms := placed_rooms.length
        placement_rate :=
          if space.rooms.isEmpty then 0
          else (placed_rooms.length : ℚ) / (space.rooms.length : ℚ)
        algorithm := "greedy_priority" } }

/-! ### Lemmas about the grid search -/

/-- `i` is an iteration of one axis of the grid-search loop exactly when the
candidate coordinate `i * gridStep` keeps the room inside the axis limit. -/
theorem lt_gridCount_iff (limit size : ℚ) (i : ℕ) :
    i < gridCount limit size ↔ (i : ℚ) * gridStep + size ≤ limit := by
  unfold gridCount gridStep
  split
  case isTrue h =>
    rw [Nat.lt_succ_iff]
    have h2 : (0 : ℚ) ≤ (limit - size) / (1 / 2) := by
      apply div_nonneg (by linarith) (by norm_num)
    rw [Int.le_toNat (Int.floor_nonneg.mpr h2), Int.le_floor,
      le_div_iff₀ (by norm_num : (0 : ℚ) < 1 / 2)]
    push_cast
    constructor <;> intro <;> linarith
  case isFalse h =>
    simp only [Nat.not_lt_zero, false_iff]
    intro hc
    exact h (by nlinarith [Nat.cast_nonneg (α := ℚ) i])

/-- Membership in the candidate list: exactly the grid points
`(i * gridStep, j * gridStep)` whose rectangle fits in the space. -/
theorem mem_candidatePositions {space : Space} {room : Room} {p : Position} :
    p ∈ candidatePositions space room ↔
      ∃ i j : ℕ, p = ⟨(i : ℚ) * gridStep, (j : ℚ) * gridStep⟩ ∧
        (i : ℚ) * gridStep + room.dimensions.width ≤ space.dimensions.width ∧
        (j : ℚ) * gridStep + room.dimensions.height ≤ space.dimensions.height := by
  unfold candidatePositions
  constructor
  · intro hp
    obtain ⟨j, hj, hp2⟩ := List.mem_flatMap.mp hp
    obtain ⟨i, hi, hpe⟩ := List.mem_map.mp hp2
    rw [List.mem_range] at hi hj
    exact ⟨i, j, hpe.symm, (lt_gridCount_iff _ _ _).mp hi, (lt_gridCount_iff _ _ _).mp hj⟩
  · rintro ⟨i, j, rfl, hi, hj⟩
    refine List.mem_flatMap.mpr
      ⟨j, List.mem_range.mpr ((lt_gridCount_iff _ _ _).mpr hj), ?_⟩
    exact List.mem_map.mpr ⟨i, List.mem_range.mpr ((lt_gridCount_iff _ _ _).mpr hi), rfl⟩

/-- Every candidate position keeps the room's rectangle inside
`[0, space.width] × [0, space.height]`. -/
theorem candidatePositions_bounds {space : Space} {room : Room} {p : Position}
    (hp : p ∈ candidatePositions space room) :
    0 ≤ p.x ∧ 0 ≤ p.y ∧
      p.x + room.dimensions.width ≤ space.dimensions.width ∧
      p.y + room.dimensions.height ≤ space.dimensions.height := by
  obtain ⟨i, j, rfl, hi, hj⟩ := mem_candidatePositions.mp hp
  have hs : (0 : ℚ) ≤ gridStep := by norm_num [gridStep]
  exact ⟨mul_nonneg (Nat.cast_nonneg i) hs, mul_nonneg (Nat.cast_nonneg j) hs, hi, hj⟩

/-! ### Lemmas about the overlap tests -/

theorem roomsOverlap_none_left {r1 r2 : Room} (h : r1.position = none) :
    roomsOverlap r1 r2 = false := by
  unfold roomsOverlap
  rw [h]

theorem roomsOverlap_none_right {r1 r2 : Room} (h : r2.position = none) :
    roomsOverlap r1 r2 = false := by
  unfold roomsOverlap
  rw [h]
  cases r1.position <;> rfl

theorem roomsOverlap_some {r1 r2 : Room} {p1 p2 : Position}
    (h1 : r1.position = some p1) (h2 : r2.position = some p2) :
    roomsOverlap r1 r2 =
      ! (decide (p1.x + r1.dimensions.width ≤ p2.x) ||
         decide (p2.x + r2.dimensions.width ≤ p1.x) ||
         decide (p1.y + r1.dimensions.height ≤ p2.y) ||
         decide (p2.y + r2.dimensions.height ≤ p1.y)) := by
  unfold roomsOverlap
  rw [h1, h2]

/-- The rectangle overlap test is symmetric. -/
theorem roomsOverlap_symm (r1 r2 : Room) : roomsOverlap r1 r2 = roomsOverlap r2 r1 := by
  cases h1 : r1.position with
  | none => rw [roomsOverlap_none_left h1, roomsOverlap_none_right h1]
  | some p1 =>
    cases h2 : r2.position with
    | none => rw [roomsOverlap_none_right h2, roomsOverlap_none_left h2]
    | some p2 =>
      rw [roomsOverlap_some h1 h2, roomsOverlap_some h2 h1, Bool.eq_iff_iff]
      simp only [Bool.not_eq_true', Bool.or_eq_false_iff, decide_eq_false_iff_not]
      tauto

theorem any_congr_of_mem {α : Type} {l : List α} {f g : α → Bool}
    (h : ∀ a ∈ l, f a = g a) : l.any f = l.any g := by
  induction l with
  | nil => rfl
  | cons a l ih =>
    simp only [List.any_cons, h a (List.mem_cons_self a l),
      ih fun b hb => h b (List.mem_cons_of_mem a hb)]

/-- `_has_overlap` applies the same rectangle test as `_rooms_overlap` to each
placed room. -/
theorem hasOverlap_eq (room : Room) (placed : List Room) :
    hasOverlap room placed = placed.any fun q => roomsOverlap room q := by
  cases h1 : room.position with
  | none =>
    have l : hasOverlap room placed = false := by unfold hasOverlap; rw [h1]
    have r : (placed.any fun q => roomsOverlap room q) = false := by
      rw [List.any_eq_false]
      intro q _
      rw [roomsOverlap_none_left h1]
      exact Bool.false_ne_true
    rw [l, r]
  | some p1 =>
    unfold hasOverlap
    rw [h1]
    apply any_congr_of_mem
    intro q _
    cases h2 : q.position with
    | none => rw [roomsOverlap_none_right h2]
    | some p2 => rw [roomsOverlap_some h1 h2]

theorem hasOverlap_eq_false_iff (room : Room) (placed : List Room) :
    hasOverlap room placed = false ↔ ∀ q ∈ placed, roomsOverlap room q = false := by
  rw [hasOverlap_eq, List.any_eq_false]
  constructor
  · intro h q hq
    exact Bool.eq_false_iff.mpr (h q hq)
  · intro h q hq
    rw [h q hq]
    exact Bool.false_ne_true

theorem hasOverlap_singleton (r q : Room) : hasOverlap r [q] = roomsOverlap r q := by
  rw [hasOverlap_eq]
  simp [List.any_cons]

/-! ### Lemmas about `_find_best_position` -/

theorem bestStep_overlap {room : Room} {placed : List Room} {position : Position}
    (acc : Option (ℚ × Position))
    (h : hasOverlap (positionedRoom room position) placed = true) :
    bestStep room placed acc position = acc := by
  unfold bestStep
  rw [if_pos h]

theorem bestStep_free_none {room : Room} {placed : List Room} {position : Position}
    (h : hasOverlap (positionedRoom room position) placed = false) :
    bestStep room placed none position = some (scorePosition position, position) := by
  unfold bestStep
  rw [if_neg (by simp [h])]

theorem bestStep_free_some {room : Room} {placed : List Room} {position : Position}
    {bs : ℚ} {bp : Position}
    (h : hasOverlap (positionedRoom room position) placed = false) :
    bestStep room placed (some (bs, bp)) position =
      if bs < scorePosition position then some (scorePosition position, position)
      else some (bs, bp) := by
  unfold bestStep
  rw [if_neg (by simp [h])]

/-- If the tracking fold ends in `some (s, p)`, it is either the unchanged
initial accumulator or a collision-free candidate from the scanned list with
its own score. -/
theorem foldl_bestStep_eq_some (room : Room) (placed : List Room) :
    ∀ (l : List Position) (acc : Option (ℚ × Position)) (s : ℚ) (p : Position),
      l.foldl (bestStep room placed) acc = some (s, p) →
      acc = some (s, p) ∨
        (p ∈ l ∧ hasOverlap (positionedRoom room p) placed = false ∧
          s = scorePosition p) := by
  intro l
  induction l with
  | nil => intro acc s p h; exact Or.inl h
  | cons a l ih =>
    intro acc s p h
    rw [List.foldl_cons] at h
    rcases ih _ s p h with hacc | ⟨hmem, hfree, hs⟩
    · by_cases hov : hasOverlap (positionedRoom room a) placed = true
      · rw [bestStep_overlap acc hov] at hacc
        exact Or.inl hacc
      · have hfree := Bool.eq_false_iff.mpr hov
        cases acc with
        | none =>
          rw [bestStep_free_none hfree] at hacc
          simp only [Option.some.injEq, Prod.mk.injEq] at hacc
          obtain ⟨rfl, rfl⟩ := hacc
          exact Or.inr ⟨List.mem_cons_self a l, hfree, rfl⟩
        | some best =>
          obtain ⟨bs, bp⟩ := best
          rw [bestStep_free_some hfree] at hacc
          by_cases hlt : bs < scorePosition a
          · rw [if_pos hlt] at hacc
            simp only [Option.some.injEq, Prod.mk.injEq] at hacc
            obtain ⟨rfl, rfl⟩ := hacc
            exact Or.inr ⟨List.mem_cons_self a l, hfree, rfl⟩
          · rw [if_neg hlt] at hacc
            exact Or.inl hacc
    · exact Or.inr ⟨List.mem_cons_of_mem _ hmem, hfree, hs⟩

/-- The tracked best score never decreases along the fold. -/
theorem foldl_bestStep_mono (room : Room) (placed : List Room) :
    ∀ (l : List Position) (s₀ : ℚ) (p₀ : Position),
      ∃ s p, l.foldl (bestStep room placed) (some (s₀, p₀)) = some (s, p) ∧ s₀ ≤ s := by
  intro l
  induction l with
  | nil => intro s₀ p₀; exact ⟨s₀, p₀, rfl, le_rfl⟩
  | cons a l ih =>
    intro s₀ p₀
    rw [List.foldl_cons]
    by_cases hov : hasOverlap (positionedRoom room a) placed = true
    · rw [show bestStep room placed (some (s₀, p₀)) a = some (s₀, p₀) from by
        unfold bestStep; rw [if_pos hov]]
      exact ih s₀ p₀
    · rw [show bestStep room placed (some (s₀, p₀)) a =
          if s₀ < scorePosition a then some (scorePosition a, a) else some (s₀, p₀) from by
        unfold bestStep; rw [if_neg hov]]
      by_cases hlt : s₀ < scorePosition a
      · rw [if_pos hlt]
        obtain ⟨s, p, hf, hge⟩ := ih (scorePosition a) a
        exact ⟨s, p, hf, le_trans hlt.le hge⟩
      · rw [if_neg hlt]
        exact ih s₀ p₀

/-- Any collision-free candidate in the scanned list forces the fold to end in
`some`, with a tracked score at least that candidate's score. -/
theorem foldl_bestStep_ge (room : Room) (placed : List Room) :
    ∀ (l : List Position) (acc : Option (ℚ × Position)) (q : Position), q ∈ l →
      hasOverlap (positionedRoom room q) placed = false →
      ∃ s p, l.foldl (bestStep room placed) acc = some (s, p) ∧ scorePosition q ≤ s := by
  intro l
  induction l with
  | nil => intro acc q hq; cases hq
  | cons a l ih =>
    intro acc q hq hfree
    rw [List.foldl_cons]
    rcases List.mem_cons.mp hq with rfl | hq'
    · have hstep : ∃ s₀ p₀, bestStep room placed acc q = some (s₀, p₀) ∧
          scorePosition q ≤ s₀ := by
        cases acc with
        | none => exact ⟨_, _, bestStep_free_none hfree, le_rfl⟩
        | some best =>
          obtain ⟨bs, bp⟩ := best
          rw [bestStep_free_some hfree]
          by_cases hlt : bs < scorePosition q
          · rw [if_pos hlt]
            exact ⟨_, _, rfl, le_rfl⟩
          · rw [if_neg hlt]
            exact ⟨bs, bp, rfl, le_of_not_lt hlt⟩
      obtain ⟨s₀, p₀, hs, hge⟩ := hstep
      rw [hs]
      obtain ⟨s, p, hf, hge2⟩ := foldl_bestStep_mono room placed l s₀ p₀
      exact ⟨s, p, hf, le_trans hge hge2⟩
    · exact ih _ q hq' hfree

/-- A returned position is a collision-free candidate. -/
theorem findBestPosition_free {space : Space} {room : Room} {placed : List Room}
    {p : Position} (h : findBestPosition space room placed = some p) :
    p ∈ candidatePositions space room ∧
      hasOverlap (positionedRoom room p) placed = false := by
  unfold findBestPosition at h
  obtain ⟨⟨s, p'⟩, hm, hp⟩ := Option.map_eq_some'.mp h
  cases hp
  rcases foldl_bestStep_eq_some room placed _ none s p' hm with h0 | ⟨hmem, hfree, _⟩
  · cases h0
  · exact ⟨hmem, hfree⟩

/-- A returned position attains the maximal `_score_position` value among all
collision-free candidates. -/
theorem findBestPosition_max {space : Space} {room : Room} {placed : List Room}
    {p : Position} (h : findBestPosition space room placed = some p) :
    ∀ q ∈ candidatePositions space room,
      hasOverlap (positionedRoom room q) placed = false →
      scorePosition q ≤ scorePosition p := by
  intro q hq hfree
  unfold findBestPosition at h
  obtain ⟨⟨s, p'⟩, hm, hp⟩ := Option.map_eq_some'.mp h
  cases hp
  have hs : s = scorePosition p' := by
    rcases foldl_bestStep_eq_some room placed _ none s p' hm with h0 | ⟨_, _, hs⟩
    · cases h0
    · exact hs
  obtain ⟨s2, p2, hf2, hge⟩ := foldl_bestStep_ge room placed _ none q hq hfree
  rw [hm] at hf2
  simp only [Option.some.injEq, Prod.mk.injEq] at hf2
  obtain ⟨rfl, _⟩ := hf2
  rw [← hs]
  exact hge

/-! ### Lemmas about the placement loop -/

/-- Every room in the accumulated placement list is either from the initial
accumulator or a positioned copy of a scanned room at one of its candidate
positions. -/
theorem foldl_placeStep_mem (space : Space) :
    ∀ (l acc : List Room) (r : Room), r ∈ l.foldl (placeStep space) acc →
      r ∈ acc ∨ ∃ room ∈ l, ∃ p, r = positionedRoom room p ∧
        p ∈ candidatePositions space room := by
  intro l
  induction l with
  | nil => intro acc r h; exact Or.inl h
  | cons a l ih =>
    intro acc r h
    rw [List.foldl_cons] at h
    rcases ih _ r h with hacc | ⟨room, hroom, p, hrp, hp⟩
    · rcases hfind : findBestPosition space a acc with _ | pos
      · rw [placeStep, hfind] at hacc
        exact Or.inl hacc
      · rw [placeStep, hfind] at hacc
        rcases List.mem_append.mp hacc with h' | h'
        · exact Or.inl h'
        · right
          exact ⟨a, List.mem_cons_self a l, pos, List.mem_singleton.mp h',
            (findBestPosition_free hfind).1⟩
    · exact Or.inr ⟨room, List.mem_cons_of_mem _ hroom, p, hrp, hp⟩

/-- The placement loop preserves pairwise non-overlap of the accumulated
placement list. -/
theorem foldl_placeStep_pairwise (space : Space) :
    ∀ (l acc : List Room),
      List.Pairwise (fun a b => roomsOverlap a b = false) acc →
      List.Pairwise (fun a b => roomsOverlap a b = false)
        (l.foldl (placeStep space) acc) := by
  intro l
  induction l with
  | nil => intro acc h; exact h
  | cons a l ih =>
    intro acc h
    rw [List.foldl_cons]
    apply ih
    rcases hfind : findBestPosition space a acc with _ | pos
    · rw [placeStep, hfind]
      exact h
    · have hall := (hasOverlap_eq_false_iff _ _).mp (findBestPosition_free hfind).2
      rw [placeStep, hfind, List.pairwise_append]
      refine ⟨h, List.pairwise_singleton _ _, ?_⟩
      intro x hx b hb
      rw [List.mem_singleton] at hb
      subst hb
      rw [roomsOverlap_symm]
      exact hall x hx

/-- The rooms placed by `generate_layout` are pairwise non-overlapping. -/
theorem placeRooms_pairwise (space : Space) :
    List.Pairwise (fun a b => roomsOverlap a b = false) (placeRooms space) :=
  foldl_placeStep_pairwise space _ [] List.Pairwise.nil

/-- Every room placed by `generate_layout` is a positioned copy of a template
room of the space, at one of its candidate positions. -/
theorem placeRooms_mem {space : Space} {r : Room} (h : r ∈ placeRooms space) :
    ∃ room ∈ space.rooms, ∃ p, r = positionedRoom room p ∧
      p ∈ candidatePositions space room := by
  rcases foldl_placeStep_mem space _ [] r h with h0 | ⟨room, hroom, p, hrp, hp⟩
  · cases h0
  · exact ⟨room, (List.perm_insertionSort _ _).mem_iff.mp hroom, p, hrp, hp⟩

/-- A pairwise non-overlapping room list produces no overlap violations. -/
theorem checkOverlaps_eq_nil {l : List Room}
    (h : List.Pairwise (fun a b => roomsOverlap a b = false) l) :
    checkOverlaps l = [] := by
  induction l with
  | nil => rfl
  | cons r1 rest ih =>
    obtain ⟨hhead, htail⟩ := List.pairwise_cons.mp h
    rw [checkOverlaps, ih htail, List.append_nil]
    rw [List.filterMap_eq_nil_iff]
    intro q hq
    rw [hhead q hq]
    rfl

/-! ### Lemmas about the stable priority sort -/

/-- Inserting a room into a list moves it past exactly the strictly
higher-priority rooms, so equal-priority subsequences are unchanged. -/
theorem filter_orderedInsert (a : Room) (l : List Room) (pr : Int) :
    (List.orderedInsert priorityGE a l).filter (fun r => r.priority == pr) =
      if a.priority == pr then a :: l.filter (fun r => r.priority == pr)
      else l.filter (fun r => r.priority == pr) := by
  rw [List.orderedInsert_eq_take_drop, List.filter_append, List.filter_cons]
  by_cases hpa : (a.priority == pr) = true
  · have htw : (List.takeWhile (fun b => decide ¬priorityGE a b) l).filter
        (fun r => r.priority == pr) = [] := by
      rw [List.filter_eq_nil_iff]
      intro b hb
      have hb2 := List.mem_takeWhile_imp hb
      rw [decide_eq_true_eq] at hb2
      unfold priorityGE at hb2
      have hlt : a.priority < b.priority := not_le.mp hb2
      have hpa' : a.priority = pr := beq_iff_eq.mp hpa
      simp only [beq_iff_eq]
      intro he
      omega
    rw [if_pos hpa, if_pos hpa, htw, List.nil_append]
    congr 1
    conv_rhs => rw [← List.takeWhile_append_dropWhile (fun b => decide ¬priorityGE a b) l]
    rw [List.filter_append, htw, List.nil_append]
  · rw [if_neg hpa, if_neg hpa]
    conv_rhs => rw [← List.takeWhile_append_dropWhile (fun b => decide ¬priorityGE a b) l]
    rw [List.filter_append]

/-- Stability of the modelled sort: for every priority value, the subsequence
of rooms having that priority is exactly the original one. -/
theorem filter_insertionSort (l : List Room) (pr : Int) :
    (l.insertionSort priorityGE).filter (fun r => r.priority == pr) =
      l.filter (fun r => r.priority == pr) := by
  induction l with
  | nil => rfl
  | cons a l ih =>
    simp only [List.insertionSort]
    rw [filter_orderedInsert, ih, List.filter_cons]

/-! ### Lemmas about the distance comparisons -/

theorem calculateDistanceSq_none_left {r1 r2 : Room} (h : r1.position = none) :
    calculateDistanceSq r1 r2 = none := by
  unfold calculateDistanceSq
  rw [h]

theorem calculateDistanceSq_none_right {r1 r2 : Room} (h : r2.position = none) :
    calculateDistanceSq r1 r2 = none := by
  unfold calculateDistanceSq
  rw [h]
  cases r1.position <;> rfl

theorem calculateDistanceSq_some {r1 r2 : Room} {p1 p2 : Position}
    (h1 : r1.position = some p1) (h2 : r2.position = some p2) :
    calculateDistanceSq r1 r2 =
      some ((p1.x + r1.dimensions.width / 2 - (p2.x + r2.dimensions.width / 2)) ^ 2 +
        (p1.y + r1.dimensions.height / 2 - (p2.y + r2.dimensions.height / 2)) ^ 2) := by
  unfold calculateDistanceSq
  rw [h1, h2]

/-- The squared center distance is nonnegative. -/
theorem calculateDistanceSq_nonneg {r1 r2 : Room} {sq : ℚ}
    (h : calculateDistanceSq r1 r2 = some sq) : 0 ≤ sq := by
  rcases h1 : r1.position with _ | p1
  · rw [calculateDistanceSq_none_left h1] at h
    cases h
  · rcases h2 : r2.position with _ | p2
    · rw [calculateDistanceSq_none_right h2] at h
      cases h
    · rw [calculateDistanceSq_some h1 h2] at h
      simp only [Option.some.injEq] at h
      subst h
      positivity

/-- `sqrtLtB sq d` decides `√sq < d`: the code's comparison
`dist < min_dist` on the real square root. -/
theorem sqrtLtB_correct (sq d : ℚ) :
    sqrtLtB sq d = true ↔ Real.sqrt (sq : ℝ) < (d : ℝ) := by
  unfold sqrtLtB
  simp only [Bool.and_eq_true, decide_eq_true_eq]
  constructor
  · rintro ⟨hd, hlt⟩
    have hd' : (0 : ℝ) < (d : ℝ) := by exact_mod_cast hd
    rw [Real.sqrt_lt' hd']
    exact_mod_cast hlt
  · intro h
    have hd' : (0 : ℝ) < (d : ℝ) := lt_of_le_of_lt (Real.sqrt_nonneg _) h
    refine ⟨by exact_mod_cast hd', ?_⟩
    have := (Real.sqrt_lt' hd').mp h
    exact_mod_cast this

/-- `sqrtGtB sq d` decides `d < √sq` (for `0 ≤ sq`): the code's comparison
`dist > max_dist` on the real square root. -/
theorem sqrtGtB_correct (sq d : ℚ) :
    sqrtGtB sq d = true ↔ (d : ℝ) < Real.sqrt (sq : ℝ) := by
  unfold sqrtGtB
  simp only [Bool.or_eq_true, decide_eq_true_eq]
  constructor
  · rintro (hd | hlt)
    · have hd' : (d : ℝ) < 0 := by exact_mod_cast hd
      exact lt_of_lt_of_le hd' (Real.sqrt_nonneg _)
    · by_cases hd : 0 ≤ d
      · have hd' : (0 : ℝ) ≤ (d : ℝ) := by exact_mod_cast hd
        rw [Real.lt_sqrt hd']
        exact_mod_cast hlt
      · have hd' : (d : ℝ) < 0 := by exact_mod_cast not_le.mp hd
        exact lt_of_lt_of_le hd' (Real.sqrt_nonneg _)
  · intro h
    by_cases hd : d < 0
    · exact Or.inl hd
    · right
      have hd' : (0 : ℝ) ≤ (d : ℝ) := by exact_mod_cast not_lt.mp hd
      have := (Real.lt_sqrt hd').mp h
      exact_mod_cast this

/-! ### Concrete inputs used by the claims -/

/-- Helper for building unplaced template rooms (as the tests/demo build
`Room(...)` values; `room_type` defaults to `"general"`). -/
def mkRoom (i nm : String) (w h : ℚ) (pr : Int) : Room :=
  { id := i, name := nm, dimensions := { width := w, height := h },
    room_type := "general", position := none, priority := pr }

/-- The §8 concrete scenario: a `10 × 8` space with three rooms. -/
def spaceC5 : Space :=
  { dimensions := { width := 10, height := 8 },
    rooms := [mkRoom "r1" "A" 5 4 9, mkRoom "r2" "B" 4 3 8, mkRoom "r3" "C" 3 3 7],
    constraints := [] }

/-- Priority-ordering scenario: a `4 × 4` space where only one `3 × 3` room
fits; the low-priority room is listed first. -/
def roomA9 : Room := mkRoom "A" "A" 3 3 10

def roomB9 : Room := mkRoom "B" "B" 3 3 1

def spaceC9 : Space :=
  { dimensions := { width := 4, height := 4 }, rooms := [roomB9, roomA9],
    constraints := [] }

/-- A `3 × 2` space, a `1 × 1` room to place, and an already-placed
`2 × 0.5` blocker at the origin: the first collision-free candidate in scan
order is `(2, 0)`, but `(0, 0.5)` in the next row scores higher. -/
def spaceC1 : Space :=
  { dimensions := { width := 3, height := 2 }, rooms := [], constraints := [] }

def roomC1 : Room := mkRoom "q" "Q" 1 1 5

def blockerC1 : Room := positionedRoom (mkRoom "p" "P" 2 (1 / 2) 5) { x := 0, y := 0 }

/-- The first collision-free candidate of the grid scan, in scan order. -/
def firstFreeCandidate (space : Space) (room : Room) (placed : List Room) :
    Option Position :=
  ((candidatePositions space room).filter
    fun p => ! hasOverlap (positionedRoom room p) placed).head?

/-! ### Claim theorems -/

/-- C1 (counterexample): with a `2 × 0.5` room already placed at the origin of
a `3 × 2` space, the first collision-free candidate for a `1 × 1` room in scan
order is `(2, 0)`, yet `_find_best_position` returns the strictly
better-scoring `(0, 0.5)` — so the first collision-free candidate does not
already have the best `positionScore` and is not what is returned. -/
theorem firstFree_not_best_counterexample :
    firstFreeCandidate spaceC1 roomC1 [blockerC1] = some { x := 2, y := 0 } ∧
    findBestPosition spaceC1 roomC1 [blockerC1] = some { x := 0, y := 1 / 2 } ∧
    ({ x := 0, y := 1 / 2 } : Position) ≠ { x := 2, y := 0 } ∧
    scorePosition { x := 2, y := 0 } < scorePosition { x := 0, y := 1 / 2 } :=
  ⟨by with_unfolding_all rfl, by with_unfolding_all rfl,
    of_decide_eq_true (by with_unfolding_all rfl),
    of_decide_eq_true (by with_unfolding_all rfl)⟩

/-- C1 (amended): the position `_find_best_position` returns is a
collision-free candidate whose `positionScore = -(x + y)` is maximal among all
collision-free candidates — the explicitly tracked maximum — though the first
collision-free candidate encountered need not attain it. -/
theorem findBestPosition_returns_max (space : Space) (room : Room)
    (placed : List Room) (p : Position)
    (h : findBestPosition space room placed = some p) :
    (p ∈ candidatePositions space room ∧
      hasOverlap (positionedRoom room p) placed = false) ∧
    ∀ q ∈ candidatePositions space room,
      hasOverlap (positionedRoom room q) placed = false →
      scorePosition q ≤ scorePosition p :=
  ⟨findBestPosition_free h, findBestPosition_max h⟩

/-- Witness for C1 (amended) at the counterexample input. -/
theorem findBestPosition_returns_max_witness :
    (({ x := 0, y := 1 / 2 } : Position) ∈ candidatePositions spaceC1 roomC1 ∧
      hasOverlap (positionedRoom roomC1 { x := 0, y := 1 / 2 }) [blockerC1] = false) ∧
    ∀ q ∈ candidatePositions spaceC1 roomC1,
      hasOverlap (positionedRoom roomC1 q) [blockerC1] = false →
      scorePosition q ≤ scorePosition { x := 0, y := 1 / 2 } :=
  findBestPosition_returns_max spaceC1 roomC1 [blockerC1] { x := 0, y := 1 / 2 }
    (by with_unfolding_all rfl)

/-- C2: for every `Space`, the rooms placed by `generate_layout` are pairwise
non-overlapping under the half-open test, so the validator's overlap check
contributes no violation messages. -/
theorem generateLayout_no_overlaps (space : Space) :
    List.Pairwise (fun a b => roomsOverlap a b = false)
      (generateLayout space).placed_rooms ∧
    checkOverlaps (generateLayout space).placed_rooms = [] :=
  ⟨placeRooms_pairwise space, checkOverlaps_eq_nil (placeRooms_pairwise space)⟩

/-- C3: every room placed by `generate_layout` carries a position with
`0 ≤ x`, `0 ≤ y`, `x + width ≤ space.width` and `y + height ≤ space.height`,
structurally guaranteed by the grid-search loop bounds. -/
theorem generateLayout_placed_in_bounds (space : Space) (r : Room)
    (h : r ∈ (generateLayout space).placed_rooms) :
    ∃ p, r.position = some p ∧ 0 ≤ p.x ∧ 0 ≤ p.y ∧
      p.x + r.dimensions.width ≤ space.dimensions.width ∧
      p.y + r.dimensions.height ≤ space.dimensions.height := by
  obtain ⟨room, _, p, rfl, hp⟩ := placeRooms_mem h
  obtain ⟨hx, hy, hw, hh⟩ := candidatePositions_bounds hp
  exact ⟨p, rfl, hx, hy, hw, hh⟩

/-- Witness for C3: the room placed in the priority scenario lies in bounds. -/
theorem generateLayout_placed_in_bounds_witness :
    ∃ p, (positionedRoom roomA9 { x := 0, y := 0 }).position = some p ∧
      0 ≤ p.x ∧ 0 ≤ p.y ∧
      p.x + (positionedRoom roomA9 { x := 0, y := 0 }).dimensions.width ≤
        spaceC9.dimensions.width ∧
      p.y + (positionedRoom roomA9 { x := 0, y := 0 }).dimensions.height ≤
        spaceC9.dimensions.height :=
  generateLayout_placed_in_bounds spaceC9 (positionedRoom roomA9 { x := 0, y := 0 })
    (of_decide_eq_true (by with_unfolding_all rfl))

/-- C4: `generate_layout` is deterministic — on identical `Space` inputs the
placed rooms, score, and violations coincide (the embedding is a pure
function; the source algorithm uses no randomness). -/
theorem generateLayout_deterministic (s₁ s₂ : Space) (h : s₁ = s₂) :
    (generateLayout s₁).placed_rooms = (generateLayout s₂).placed_rooms ∧
    (generateLayout s₁).score = (generateLayout s₂).score ∧
    (generateLayout s₁).violations = (generateLayout s₂).violations := by
  subst h
  exact ⟨rfl, rfl, rfl⟩

/-- Witness for C4 at the concrete `3 × 2` space. -/
theorem generateLayout_deterministic_witness :
    (generateLayout spaceC1).placed_rooms = (generateLayout spaceC1).placed_rooms ∧
    (generateLayout spaceC1).score = (generateLayout spaceC1).score ∧
    (generateLayout spaceC1).violations = (generateLayout spaceC1).violations :=
  generateLayout_deterministic spaceC1 spaceC1 rfl

/-- C5: on the §8 concrete scenario (`10 × 8` space, rooms `5×4`, `4×3`,
`3×3` with priorities 9, 8, 7), all three rooms are placed, there are no
violations, the layout is valid, and the score lies strictly between 100 and
130. -/
theorem generateLayout_concrete_scenario :
    (generateLayout spaceC5).placed_rooms.map Room.id = ["r1", "r2", "r3"] ∧
    (generateLayout spaceC5).placed_rooms.length = 3 ∧
    (generateLayout spaceC5).violations = [] ∧
    (generateLayout spaceC5).is_valid = true ∧
    100 < (generateLayout spaceC5).score ∧
    (generateLayout spaceC5).score < 130 :=
  ⟨by with_unfolding_all rfl, by with_unfolding_all rfl, by with_unfolding_all rfl,
    by with_unfolding_all rfl,
    of_decide_eq_true (by with_unfolding_all rfl),
    of_decide_eq_true (by with_unfolding_all rfl)⟩

/-- C6: for positioned rooms, `_rooms_overlap` returns true exactly when
`NOT (A.x2 <= B.x1 OR B.x2 <= A.x1 OR A.y2 <= B.y1 OR B.y2 <= A.y1)` with
`x2 = x + width`, `y2 = y + height`; `_has_overlap` agrees with it against a
single placed room, and edge-touching rectangles do not overlap. -/
theorem roomsOverlap_halfOpen_characterization (room1 room2 : Room)
    (p1 p2 : Position) (h1 : room1.position = some p1)
    (h2 : room2.position = some p2) :
    (roomsOverlap room1 room2 = true ↔
      ¬(p1.x + room1.dimensions.width ≤ p2.x ∨
        p2.x + room2.dimensions.width ≤ p1.x ∨
        p1.y + room1.dimensions.height ≤ p2.y ∨
        p2.y + room2.dimensions.height ≤ p1.y)) ∧
    hasOverlap room1 [room2] = roomsOverlap room1 room2 ∧
    (p1.x + room1.dimensions.width = p2.x → roomsOverlap room1 room2 = false) := by
  refine ⟨?_, hasOverlap_singleton _ _, ?_⟩
  · rw [roomsOverlap_some h1 h2]
    simp only [Bool.not_eq_true', Bool.or_eq_false_iff, decide_eq_false_iff_not, not_or]
    tauto
  · intro he
    rw [roomsOverlap_some h1 h2]
    simp [he]

/-- Witness for C6: two flush-adjacent `2 × 2` rooms. -/
theorem roomsOverlap_halfOpen_characterization_witness :
    (roomsOverlap (positionedRoom (mkRoom "e1" "E1" 2 2 5) { x := 0, y := 0 })
        (positionedRoom (mkRoom "e2" "E2" 2 2 5) { x := 2, y := 0 }) = true ↔
      ¬((0 : ℚ) + 2 ≤ 2 ∨ (2 : ℚ) + 2 ≤ 0 ∨ (0 : ℚ) + 2 ≤ 0 ∨ (0 : ℚ) + 2 ≤ 0)) ∧
    hasOverlap (positionedRoom (mkRoom "e1" "E1" 2 2 5) { x := 0, y := 0 })
        [positionedRoom (mkRoom "e2" "E2" 2 2 5) { x := 2, y := 0 }] =
      roomsOverlap (positionedRoom (mkRoom "e1" "E1" 2 2 5) { x := 0, y := 0 })
        (positionedRoom (mkRoom "e2" "E2" 2 2 5) { x := 2, y := 0 }) ∧
    ((0 : ℚ) + 2 = 2 →
      roomsOverlap (positionedRoom (mkRoom "e1" "E1" 2 2 5) { x := 0, y := 0 })
        (positionedRoom (mkRoom "e2" "E2" 2 2 5) { x := 2, y := 0 }) = false) :=
  roomsOverlap_halfOpen_characterization
    (positionedRoom (mkRoom "e1" "E1" 2 2 5) { x := 0, y := 0 })
    (positionedRoom (mkRoom "e2" "E2" 2 2 5) { x := 2, y := 0 })
    { x := 0, y := 0 } { x := 2, y := 0 } rfl rfl

/-- C7: the bounds check reports one message per violated axis independently,
with strict `>` (`<` read from the space's side); a room exactly filling a
`10 × 8` space produces zero bounds violations, and a room exceeding both
axes produces two messages. -/
theorem checkBounds_per_axis :
    (∀ (space : Space) (room : Room) (p : Position), room.position = some p →
      checkBounds space [room] =
        (if space.dimensions.width < p.x + room.dimensions.width
          then [Violation.boundsWidth room.name] else []) ++
        (if space.dimensions.height < p.y + room.dimensions.height
          then [Violation.boundsHeight room.name] else [])) ∧
    checkBounds spaceC5 [positionedRoom (mkRoom "f" "F" 10 8 5) { x := 0, y := 0 }] = [] ∧
    checkBounds spaceC1 [positionedRoom (mkRoom "g" "G" 4 3 5) { x := 0, y := 0 }] =
      [Violation.boundsWidth "G", Violation.boundsHeight "G"] := by
  refine ⟨?_, by with_unfolding_all rfl, by with_unfolding_all rfl⟩
  intro space room p h
  unfold checkBounds
  rw [List.flatMap_cons, List.flatMap_nil, List.append_nil]
  unfold boundsViolations
  rw [h]

/-- Witness for C7 at the exactly-filling room. -/
theorem checkBounds_per_axis_witness :
    checkBounds spaceC5 [positionedRoom (mkRoom "f" "F" 10 8 5) { x := 0, y := 0 }] =
      (if spaceC5.dimensions.width <
          ({ x := 0, y := 0 } : Position).x +
            (positionedRoom (mkRoom "f" "F" 10 8 5) { x := 0, y := 0 }).dimensions.width
        then [Violation.boundsWidth
          (positionedRoom (mkRoom "f" "F" 10 8 5) { x := 0, y := 0 }).name] else []) ++
      (if spaceC5.dimensions.height <
          ({ x := 0, y := 0 } : Position).y +
            (positionedRoom (mkRoom "f" "F" 10 8 5) { x := 0, y := 0 }).dimensions.height
        then [Violation.boundsHeight
          (positionedRoom (mkRoom "f" "F" 10 8 5) { x := 0, y := 0 }).name] else []) :=
  checkBounds_per_axis.1 spaceC5
    (positionedRoom (mkRoom "f" "F" 10 8 5) { x := 0, y := 0 }) { x := 0, y := 0 } rfl

/-- C8: a `min_distance` or `adjacency` constraint whose referenced rooms are
not both found and positioned is silently skipped; when both are found and
positioned, `min_distance` fires iff the center-to-center Euclidean distance
is strictly below `params.distance` (default 0), and `adjacency` iff it is
strictly above `params.max_distance` (default 1.0). -/
theorem customConstraints_skip_and_thresholds (rooms : List Room) (c : Constraint) :
    ((findRoomById rooms c.params.room1 = none ∨
      findRoomById rooms c.params.room2 = none ∨
      (∃ r1, findRoomById rooms c.params.room1 = some r1 ∧ r1.position = none) ∨
      (∃ r2, findRoomById rooms c.params.room2 = some r2 ∧ r2.position = none)) →
      checkMinDistance rooms c = [] ∧ checkAdjacency rooms c = []) ∧
    (∀ (r1 r2 : Room) (sq : ℚ), findRoomById rooms c.params.room1 = some r1 →
      findRoomById rooms c.params.room2 = some r2 →
      calculateDistanceSq r1 r2 = some sq →
      ((checkMinDistance rooms c ≠ [] ↔
        Real.sqrt (sq : ℝ) < ((c.params.distance.getD 0 : ℚ) : ℝ)) ∧
       (checkAdjacency rooms c ≠ [] ↔
        ((c.params.max_distance.getD 1 : ℚ) : ℝ) < Real.sqrt (sq : ℝ)))) := by
  constructor
  · intro h
    constructor
    · rcases h with h | h | ⟨r1, hr1, hp1⟩ | ⟨r2, hr2, hp2⟩
      · simp [checkMinDistance, h]
      · rcases hx : findRoomById rooms c.params.room1 with _ | rx <;>
          simp [checkMinDistance, hx, h]
      · rcases hy : findRoomById rooms c.params.room2 with _ | ry <;>
          simp [checkMinDistance, hr1, hy, calculateDistanceSq_none_left hp1]
      · rcases hx : findRoomById rooms c.params.room1 with _ | rx <;>
          simp [checkMinDistance, hx, hr2, calculateDistanceSq_none_right hp2]
    · rcases h with h | h | ⟨r1, hr1, hp1⟩ | ⟨r2, hr2, hp2⟩
      · simp [checkAdjacency, h]
      · rcases hx : findRoomById rooms c.params.room1 with _ | rx <;>
          simp [checkAdjacency, hx, h]
      · rcases hy : findRoomById rooms c.params.room2 with _ | ry <;>
          simp [checkAdjacency, hr1, hy, calculateDistanceSq_none_left hp1]
      · rcases hx : findRoomById rooms c.params.room1 with _ | rx <;>
          simp [checkAdjacency, hx, hr2, calculateDistanceSq_none_right hp2]
  · intro r1 r2 sq hr1 hr2 hsq
    constructor
    · have key : checkMinDistance rooms c ≠ [] ↔
          sqrtLtB sq (c.params.distance.getD 0) = true := by
        by_cases hb : sqrtLtB sq (c.params.distance.getD 0) = true <;>
          simp [checkMinDistance, hr1, hr2, hsq, hb]
      rw [key, sqrtLtB_correct]
    · have key : checkAdjacency rooms c ≠ [] ↔
          sqrtGtB sq (c.params.max_distance.getD 1) = true := by
        by_cases hb : sqrtGtB sq (c.params.max_distance.getD 1) = true <;>
          simp [checkAdjacency, hr1, hr2, hsq, hb]
      rw [key, sqrtGtB_correct]

/-- Concrete rooms and constraint for the C8 witness: centers `(1,1)` and
`(4,1)`, squared distance `9`. -/
def wRoomD1 : Room := positionedRoom (mkRoom "d1" "D1" 2 2 5) { x := 0, y := 0 }

def wRoomD2 : Room := positionedRoom (mkRoom "d2" "D2" 2 2 5) { x := 3, y := 0 }

def wParamsD : ConstraintParams :=
  { room1 := some "d1", room2 := some "d2", distance := some 4, max_distance := none }

def wConstraintD : Constraint :=
  { type := "min_distance", params := wParamsD, description := none }

/-- Witness for C8: the skip branch on an empty room list and the threshold
branch at squared distance 9. -/
theorem customConstraints_skip_and_thresholds_witness :
    (checkMinDistance [] wConstraintD = [] ∧ checkAdjacency [] wConstraintD = []) ∧
    ((checkMinDistance [wRoomD1, wRoomD2] wConstraintD ≠ [] ↔
      Real.sqrt ((9 : ℚ) : ℝ) < ((wConstraintD.params.distance.getD 0 : ℚ) : ℝ)) ∧
     (checkAdjacency [wRoomD1, wRoomD2] wConstraintD ≠ [] ↔
      ((wConstraintD.params.max_distance.getD 1 : ℚ) : ℝ) < Real.sqrt ((9 : ℚ) : ℝ))) :=
  ⟨(customConstraints_skip_and_thresholds [] wConstraintD).1
      (Or.inl (by with_unfolding_all rfl)),
    (customConstraints_skip_and_thresholds [wRoomD1, wRoomD2] wConstraintD).2
      wRoomD1 wRoomD2 9 (by with_unfolding_all rfl) (by with_unfolding_all rfl)
      (by with_unfolding_all rfl)⟩

/-- C9: `generate_layout` attempts rooms in priority-descending order with
stable ties — the modelled sort is sorted under `priorityGE`, a permutation of
the request, and preserves the relative order of equal priorities — and in the
concrete two-room scenario the priority-10 room is placed at the origin while
the priority-1 room is left unplaced. -/
theorem generateLayout_priority_order :
    (∀ space : Space,
      List.Sorted priorityGE (sortedRooms space) ∧
      (sortedRooms space).Perm space.rooms ∧
      ∀ pr : Int, (sortedRooms space).filter (fun r => r.priority == pr) =
        space.rooms.filter (fun r => r.priority == pr)) ∧
    (generateLayout spaceC9).placed_rooms = [positionedRoom roomA9 { x := 0, y := 0 }] := by
  refine ⟨fun space => ⟨List.sorted_insertionSort priorityGE space.rooms,
    List.perm_insertionSort priorityGE space.rooms,
    fun pr => filter_insertionSort space.rooms pr⟩, ?_⟩
  with_unfolding_all rfl

/-- C10: every placed room agrees with a template room of the input space on
id, name, dimensions, room_type and priority, and carries a position; the
layout's `space` field is the unmodified input (placement builds fresh copies
and never mutates the request). -/
theorem generateLayout_frame (space : Space) (r : Room)
    (h : r ∈ (generateLayout space).placed_rooms) :
    (∃ t ∈ space.rooms, r.id = t.id ∧ r.name = t.name ∧
      r.dimensions = t.dimensions ∧ r.room_type = t.room_type ∧
      r.priority = t.priority ∧ ∃ p, r.position = some p) ∧
    (generateLayout space).space = space := by
  refine ⟨?_, rfl⟩
  obtain ⟨room, hroom, p, rfl, _⟩ := placeRooms_mem h
  exact ⟨room, hroom, rfl, rfl, rfl, rfl, rfl, p, rfl⟩

/-- Witness for C10 at the priority scenario. -/
theorem generateLayout_frame_witness :
    (∃ t ∈ spaceC9.rooms, (positionedRoom roomA9 { x := 0, y := 0 }).id = t.id ∧
      (positionedRoom roomA9 { x := 0, y := 0 }).name = t.name ∧
      (positionedRoom roomA9 { x := 0, y := 0 }).dimensions = t.dimensions ∧
      (positionedRoom roomA9 { x := 0, y := 0 }).room_type = t.room_type ∧
      (positionedRoom roomA9 { x := 0, y := 0 }).priority = t.priority ∧
      ∃ p, (positionedRoom roomA9 { x := 0, y := 0 }).position = some p) ∧
    (generateLayout spaceC9).space = spaceC9 :=
  generateLayout_frame spaceC9 (positionedRoom roomA9 { x := 0, y := 0 })
    (of_decide_eq_true (by with_unfolding_all rfl))

end SpatialPlanning
